import Mathlib

/-!
Verification of the graph-traversal weight-operation locator and the
quantization orchestration logic of `optimum/intel/openvino/quantization.py`.

The computation graph is modelled shallowly: a graph is a list of nodes and a
node's inputs are indices of earlier nodes (the data-model invariant: inputs
reference operations already part of the graph, no forward references).  Each
node carries its type tag, its ordered input ports, its friendly name and the
element-type tag of its output value.
-/

structure GraphNode where
  type_name : String
  inputs : List Nat
  friendly_name : String
  element_type : String
deriving Repr, DecidableEq, Inhabited

abbrev Graph := List GraphNode

/-- The transparent op types the backward search may walk through,
from `_get_operation_const_op`. -/
def allowed_propagation_types_list : List String := ["Convert", "FakeQuantize", "Reshape"]

/-- The while-loop of `_get_operation_const_op`, with an explicit fuel
parameter (the source loop has no bound of its own; termination on acyclic
graphs is proved below).  Each iteration pops the front of the queue;
a `Constant` is returned at once; a non-constant node with no inputs breaks
out of the loop (returning `none`); a transparent node enqueues the producer
of its first input; any other node enqueues nothing. -/
def const_op_loop (g : Graph) : Nat → List Nat → Option Nat
  | 0, _ => none
  | _ + 1, [] => none
  | fuel + 1, curr :: rest =>
    match g[curr]? with
    | none => const_op_loop g fuel rest
    | some node =>
      if node.type_name = "Constant" then some curr
      else
        match node.inputs with
        | [] => none
        | p :: _ =>
          if node.type_name ∈ allowed_propagation_types_list then
            const_op_loop g fuel (rest ++ [p])
          else
            const_op_loop g fuel rest

/-- `_get_operation_const_op(operation, const_port_id)`: seed the queue with
the producer of the given input port and run the loop.  The fuel is the graph
size, which suffices on acyclic graphs (proved below). -/
def get_operation_const_op (g : Graph) (operation : GraphNode) (const_port_id : Nat) :
    Option Nat :=
  match operation.inputs[const_port_id]? with
  | none => none
  | some n => const_op_loop g g.length [n]

/-- `_is_embedding(node)`: the element type of the value feeding port 0 must
be a float tag and a constant must resolve from port 0. -/
def is_embedding (g : Graph) (node : GraphNode) : Bool :=
  match node.inputs[0]? with
  | none => false
  | some p =>
    match g[p]? with
    | none => false
    | some producer =>
      if producer.element_type ∈ ["f16", "f32", "f64"] then
        (get_operation_const_op g node 0).isSome
      else false

/-- The body of the loop of `_collect_ops_with_weights`: a MatMul one of
whose operands resolves to a constant is appended, and a Gather classified as
an embedding is appended. -/
def collect_ops_body (g : Graph) (ops_with_weights : List String) (op : GraphNode) :
    List String :=
  let ops1 :=
    if op.type_name = "MatMul" then
      if (get_operation_const_op g op 0).isSome ∨ (get_operation_const_op g op 1).isSome
      then ops_with_weights ++ [op.friendly_name]
      else ops_with_weights
    else ops_with_weights
  if op.type_name = "Gather" ∧ is_embedding g op = true then
    ops1 ++ [op.friendly_name]
  else ops1

/-- `_collect_ops_with_weights(model)`: fold the loop body over the graph's
operations. -/
def collect_ops_with_weights (g : Graph) : List String :=
  g.foldl (collect_ops_body g) []

/-- The data-model invariant on graphs: every input edge references an
earlier node (so the graph is acyclic). -/
def no_forward_references (g : Graph) : Prop :=
  ∀ i, i < g.length → ∀ p ∈ (g.getD i default).inputs, p < i

/-- The backward chain followed from node `i` (through first inputs of
transparent, non-constant nodes) reaches a node whose type tag is neither
`Constant` nor in the transparent allow-list. -/
inductive blocked_backward_chain (g : Graph) : Nat → Prop where
  | blocked (i : Nat) (node : GraphNode) (hg : g[i]? = some node)
      (hconst : node.type_name ≠ "Constant")
      (hmem : node.type_name ∉ allowed_propagation_types_list) :
      blocked_backward_chain g i
  | step (i : Nat) (node : GraphNode) (p : Nat) (l : List Nat)
      (hg : g[i]? = some node) (hconst : node.type_name ≠ "Constant")
      (hmem : node.type_name ∈ allowed_propagation_types_list)
      (hinp : node.inputs = p :: l)
      (htail : blocked_backward_chain g p) :
      blocked_backward_chain g i

/-! ### C9: the queue never holds more than one node -/

/-- One iteration of the resolver loop, viewed as a queue transformer:
`none` means the loop exits during this iteration (constant found, or break on
a node without inputs); `some q2` means the loop continues with queue `q2`. -/
def const_op_step (g : Graph) (curr : Nat) (rest : List Nat) : Option (List Nat) :=
  match g[curr]? with
  | none => some rest
  | some node =>
    if node.type_name = "Constant" then none
    else
      match node.inputs with
      | [] => none
      | p :: _ =>
        if node.type_name ∈ allowed_propagation_types_list then some (rest ++ [p])
        else some rest

/-- The value the loop returns when it exits while processing `curr`. -/
def const_op_exit_value (g : Graph) (curr : Nat) : Option Nat :=
  match g[curr]? with
  | none => none
  | some node => if node.type_name = "Constant" then some curr else none

/-- The resolver loop with the early break on an input-less non-constant node
replaced by merely abandoning that path (popping and enqueuing nothing). -/
def const_op_loop_no_break (g : Graph) : Nat → List Nat → Option Nat
  | 0, _ => none
  | _ + 1, [] => none
  | fuel + 1, curr :: rest =>
    match g[curr]? with
    | none => const_op_loop_no_break g fuel rest
    | some node =>
      if node.type_name = "Constant" then some curr
      else
        match node.inputs with
        | [] => const_op_loop_no_break g fuel rest
        | p :: _ =>
          if node.type_name ∈ allowed_propagation_types_list then
            const_op_loop_no_break g fuel (rest ++ [p])
          else
            const_op_loop_no_break g fuel rest

/-- The walk along a single backward chain (no queue at all). -/
def const_op_chain (g : Graph) : Nat → Nat → Option Nat
  | 0, _ => none
  | fuel + 1, curr =>
    match g[curr]? with
    | none => none
    | some node =>
      if node.type_name = "Constant" then some curr
      else
        match node.inputs with
        | [] => none
        | p :: _ =>
          if node.type_name ∈ allowed_propagation_types_list then
            const_op_chain g fuel p
          else none

/-! ### C2: the weight-operation classifier -/

/-- The element type of the value feeding an operation's input port 0. -/
def port0_value_element_type (g : Graph) (op : GraphNode) : Option String :=
  (op.inputs[0]?).bind (fun p => (g[p]?).map (fun producer => producer.element_type))

/-- Whether the value feeding port 0 has a floating-point element type. -/
def port0_is_float (g : Graph) (op : GraphNode) : Bool :=
  match port0_value_element_type g op with
  | some t => decide (t ∈ ["f16", "f32", "f64"])
  | none => false

/-- The classification predicate as the claim states it: a MatMul either of
whose operands resolves to a constant, or a Gather whose port-0 value is
float-typed and whose port 0 resolves to a constant. -/
def is_weight_op (g : Graph) (op : GraphNode) : Bool :=
  (decide (op.type_name = "MatMul")
    && ((get_operation_const_op g op 0).isSome || (get_operation_const_op g op 1).isSome))
  || (decide (op.type_name = "Gather")
    && port0_is_float g op
    && (get_operation_const_op g op 0).isSome)

/-! ### Heap model of Python object aliasing for `_hybrid_quantization` -/

abbrev StrList := List String

/-- A heap of Python objects: string-list objects addressed by index, and
dict objects mapping string keys to list references. -/
structure Heap where
  lists : List StrList
  dicts : List (List (String × Nat))
deriving Repr, DecidableEq

def Heap.getList (h : Heap) (r : Nat) : StrList := (h.lists[r]?).getD []

def Heap.allocList (h : Heap) (v : StrList) : Heap × Nat :=
  ({ h with lists := h.lists ++ [v] }, h.lists.length)

def Heap.setList (h : Heap) (r : Nat) (v : StrList) : Heap :=
  { h with lists := h.lists.set r v }

def Heap.getDict (h : Heap) (r : Nat) : List (String × Nat) := (h.dicts[r]?).getD []

def Heap.allocDict (h : Heap) (d : List (String × Nat)) : Heap × Nat :=
  ({ h with dicts := h.dicts ++ [d] }, h.dicts.length)

def dict_lookup (d : List (String × Nat)) (k : String) : Option Nat :=
  (d.find? (fun kv => kv.fst == k)).map (fun kv => kv.snd)

/-- Python dict assignment `d[k] = r`: replace the entry in place when the
key is present, append it otherwise. -/
def dict_assign (d : List (String × Nat)) (k : String) (r : Nat) : List (String × Nat) :=
  if (d.find? (fun kv => kv.fst == k)).isSome
  then d.map (fun kv => if kv.fst == k then (k, r) else kv)
  else d ++ [(k, r)]

def Heap.setDictEntry (h : Heap) (dr : Nat) (k : String) (r : Nat) : Heap :=
  { h with dicts := h.dicts.set dr (dict_assign (h.getDict dr) k r) }

/-- The string-list value stored under key `k` of dict `dr`. -/
def Heap.dictVal (h : Heap) (dr : Nat) (k : String) : Option StrList :=
  (dict_lookup (h.getDict dr) k).map (fun r => h.getList r)

/-- The fields of `OVWeightQuantizationConfig` that `_hybrid_quantization`
consumes.  `ignored_scope` is a reference into the heap's dict store when the
field holds a dict; `none` models a non-dict value. -/
structure OVWeightQuantizationConfig where
  ignored_scope : Option Nat
  num_samples : Option Nat
deriving Repr, DecidableEq

/-- `nncf.IgnoredScope(**d)`: each list field is the dict's own list object
when the key is present, and a fresh empty list (the dataclass default
factory) otherwise. -/
def ignored_scope_field_ref (h : Heap) (dr : Nat) (k : String) : Heap × Nat :=
  match dict_lookup (h.getDict dr) k with
  | some r => (h, r)
  | none => h.allocList []

/-- `copy.deepcopy` of a config whose ignored scope is a dict: fresh copies
of the dict and of every list it refers to. -/
def deepcopy_ignored_scope (h : Heap) (cfg : OVWeightQuantizationConfig) :
    Heap × Option Nat :=
  match cfg.ignored_scope with
  | none => (h, none)
  | some dr =>
    let copied := (h.getDict dr).foldl
      (fun (acc : Heap × List (String × Nat)) kv =>
        let step := acc.fst.allocList (acc.fst.getList kv.snd)
        (step.fst, acc.snd ++ [(kv.fst, step.snd)]))
      (h, [])
    let final := copied.fst.allocDict copied.snd
    (final.fst, some final.snd)

/-- The externally observable calls `_hybrid_quantization` makes, with the
argument values read at call time. -/
inductive HEvent where
  | collect_ops (names : StrList)
  | compress_weights (scope_names scope_types scope_patterns : StrList)
  | quantize_full (scope_names scope_types scope_patterns : StrList)
      (subset_size : Nat) (sq_matmul : Int)
deriving Repr, DecidableEq

/-- `_hybrid_quantization(model, quantization_config, dataset)` on the heap
model: returns the final heap and the trace of engine calls (collected
weight names; the ignored-scope values read by the weight-only pass; the
ignored-scope values, subset size and smooth-quant matmul override passed to
the full-quantization pass). -/
def hybrid_quantization (h0 : Heap) (g : Graph) (cfg : OVWeightQuantizationConfig) :
    Heap × List HEvent :=
  -- ops_to_compress = _collect_ops_with_weights(model)
  let ops_to_compress := collect_ops_with_weights g
  -- ignored_scope = quantization_config.ignored_scope if isinstance(..., dict) else {}
  let step1 : Heap × Nat :=
    match cfg.ignored_scope with
    | some r => (h0, r)
    | none => h0.allocDict []
  let h1 := step1.fst
  let scope_ref := step1.snd
  -- ptq_ignored_scope = nncf.IgnoredScope(**ignored_scope)
  let step2 := ignored_scope_field_ref h1 scope_ref "names"
  let h2 := step2.fst
  let ptq_names_ref := step2.snd
  let step3 := ignored_scope_field_ref h2 scope_ref "types"
  let h3 := step3.fst
  let ptq_types_ref := step3.snd
  let step4 := ignored_scope_field_ref h3 scope_ref "patterns"
  let h4 := step4.fst
  let ptq_patterns_ref := step4.snd
  -- ptq_ignored_scope.names += ops_to_compress  (in-place list extend)
  let h5 := h4.setList ptq_names_ref (h4.getList ptq_names_ref ++ ops_to_compress)
  -- wc_quantization_config = copy.deepcopy(quantization_config)
  let step6 := deepcopy_ignored_scope h5 cfg
  let h6 := step6.fst
  -- wc_quantization_config.ignored_scope = ignored_scope
  -- (rebinds the copy's attribute back to the ORIGINAL dict object)
  let wc_scope_ref := scope_ref
  -- wc_quantization_config.ignored_scope["types"] = ignored_scope.get("types", []) + ["Convolution"]
  let types_val := (h6.dictVal scope_ref "types").getD []
  let step7 := h6.allocList (types_val ++ ["Convolution"])
  let h7 := step7.fst
  let h8 := h7.setDictEntry wc_scope_ref "types" step7.snd
  -- compressed_model = _weight_only_quantization(model, wc_quantization_config):
  -- the weight-only pass reads the scope dict's entries at call time
  let wc_names := (h8.dictVal wc_scope_ref "names").getD []
  let wc_types := (h8.dictVal wc_scope_ref "types").getD []
  let wc_patterns := (h8.dictVal wc_scope_ref "patterns").getD []
  -- subset_size = quantization_config.num_samples if quantization_config.num_samples else 200
  let subset_size :=
    match cfg.num_samples with
    | some n => if n ≠ 0 then n else 200
    | none => 200
  -- quantized_model = nncf.quantize(..., ignored_scope=ptq_ignored_scope,
  --   advanced_parameters=AdvancedQuantizationParameters(
  --     AdvancedSmoothQuantParameters(matmul=-1)), subset_size=subset_size)
  (h8,
    [HEvent.collect_ops ops_to_compress,
     HEvent.compress_weights wc_names wc_types wc_patterns,
     HEvent.quantize_full (h8.getList ptq_names_ref) (h8.getList ptq_types_ref)
       (h8.getList ptq_patterns_ref) subset_size (-1)])

/-! ### Trace model of `OVQuantizer.quantize` (validation, dispatch, export) -/

/-- Observable steps of a `quantize` call.  `warning` is a log line;
the others create files or drive the export / quantization engines. -/
inductive QEvent where
  | warning (msg : String)
  | set_task_resolved (task : String)
  | mkdir (dir : String)
  | save_config (dir : String)
  | weight_only_compress
  | full_quantize
  | export_model (task : String)
  | save_model (dir : String)
deriving Repr, DecidableEq

inductive QError where
  | value_error (msg : String)
  | type_error (msg : String)
deriving Repr, DecidableEq

/-- Which runtime representation `self.model` has. -/
inductive ModelKind where
  | ov_base_model
  | torch_module
  | other_model (type_name : String)
deriving Repr, DecidableEq

/-- The `ov_config` argument: absent, a genuine `OVConfig`, or an object of
some other type. -/
inductive ConfigArg where
  | no_config
  | ov_config_arg
  | other_config (type_name : String)
deriving Repr, DecidableEq

def QEvent.is_warning : QEvent → Bool
  | QEvent.warning _ => true
  | _ => false

/-- `OVQuantizer._set_task`: use the given task, else the inferred one
(raising when neither exists); resolve aliases; reject seq2seq and
image-to-text tasks. -/
def set_task (aliases : String → String) (task inferred_task : Option String) :
    Except QError String :=
  let t0 : Option String :=
    match task with
    | some t => some t
    | none => inferred_task
  match t0 with
  | none =>
    Except.error (QError.value_error "The task defining the model topology could not be extracted")
  | some t =>
    let t1 := aliases t
    if t1 = "text2text-generation" then
      Except.error (QError.value_error "Seq2Seq models are currently not supported")
    else if t1 = "image-to-text" then
      Except.error (QError.value_error "Image2Text models are currently not supported")
    else Except.ok t1

/-- `OVQuantizer._quantize_torchmodel` (export path), at the granularity of
its observable steps: task resolution first, then directory creation, config
save, compression or quantization, export and final save. -/
def quantize_torchmodel (aliases : String → String) (task inferred_task : Option String)
    (save_dir : String) (weights_only : Bool) : List QEvent × Option QError :=
  match set_task aliases task inferred_task with
  | Except.error e => ([], some e)
  | Except.ok t =>
    ([QEvent.set_task_resolved t, QEvent.mkdir save_dir, QEvent.save_config save_dir]
      ++ (if weights_only then [QEvent.weight_only_compress] else [QEvent.full_quantize])
      ++ [QEvent.export_model t, QEvent.save_model save_dir], none)

/-- `OVQuantizer._quantize_ovbasemodel` (direct path): directory creation,
then compression or quantization, then save. -/
def quantize_ovbasemodel (save_dir : String) (weights_only : Bool) :
    List QEvent × Option QError :=
  ([QEvent.mkdir save_dir]
    ++ (if weights_only then [QEvent.weight_only_compress] else [QEvent.full_quantize])
    ++ [QEvent.save_model save_dir], none)

/-- `OVQuantizer.quantize`: validation (save path, calibration dataset,
config type), then dispatch on the model representation. -/
def OVQuantizer_quantize (model : ModelKind) (aliases : String → String)
    (task inferred_task : Option String) (has_calibration_dataset : Bool)
    (save_directory : Option String) (ov_config : ConfigArg) (weights_only : Bool) :
    List QEvent × Option QError :=
  match save_directory with
  | none => ([], some (QError.value_error "save_directory needs to be specified"))
  | some save_dir =>
    let warns : List QEvent :=
      if weights_only && has_calibration_dataset then
        [QEvent.warning "calibration_dataset was provided but will not be used as weights_only is set to True"]
      else []
    if !weights_only && !has_calibration_dataset then
      (warns, some (QError.value_error "calibration_dataset is needed to compute the activations range"))
    else
      match ov_config with
      | ConfigArg.other_config tn =>
        (warns, some (QError.type_error ("ov_config should be an OVConfig, but got: " ++ tn)))
      | _ =>
        match model with
        | ModelKind.ov_base_model =>
          let r := quantize_ovbasemodel save_dir weights_only
          (warns ++ r.fst, r.snd)
        | ModelKind.torch_module =>
          let r := quantize_torchmodel aliases task inferred_task save_dir weights_only
          (warns ++ [QEvent.warning "The support of torch.nn.Module will be deprecated"] ++ r.fst,
            r.snd)
        | ModelKind.other_model tn =>
          (warns, some (QError.type_error ("Unsupported model type: " ++ tn)))

/-! ### Calibration dataset construction (`get_calibration_dataset`) -/

/-- `datasets.Dataset.select(indices)`: selecting rows by indices; an
out-of-range index is an error (`none`). -/
def dataset_select {α : Type} (ds : List α) (indices : List Nat) : Option (List α) :=
  if indices.all (fun i => decide (i < ds.length)) then
    some (indices.filterMap (fun i => ds[i]?))
  else none

/-- The sample-selection step of `OVQuantizer.get_calibration_dataset` after
the dataset is loaded, with the dataset service's shuffle-by-seed abstracted
as a function argument: when a sample cap is given, cap it at the dataset
length, shuffle the dataset with the seed and select `range(num_samples)`
rows of the shuffled dataset. -/
def get_calibration_dataset {α : Type} (shuffle : List α → Nat → List α)
    (loaded : List α) (seed : Nat) (num_samples : Option Nat) : Option (List α) :=
  match num_samples with
  | none => some loaded
  | some ns =>
    let ns2 := min ns loaded.length
    dataset_select (shuffle loaded seed) (List.range ns2)

/-! ### Theorems -/

theorem const_op_loop_nil (g : Graph) (fuel : Nat) : const_op_loop g fuel [] = none := by
  cases fuel <;> rfl

theorem const_op_loop_missing (g : Graph) (fuel : Nat) (curr : Nat) (rest : List Nat)
    (hg : g[curr]? = none) :
    const_op_loop g (fuel + 1) (curr :: rest) = const_op_loop g fuel rest := by
  simp [const_op_loop, hg]

theorem const_op_loop_constant (g : Graph) (fuel : Nat) (curr : Nat) (rest : List Nat)
    (node : GraphNode) (hg : g[curr]? = some node) (ht : node.type_name = "Constant") :
    const_op_loop g (fuel + 1) (curr :: rest) = some curr := by
  simp [const_op_loop, hg, ht]

theorem const_op_loop_no_inputs (g : Graph) (fuel : Nat) (curr : Nat) (rest : List Nat)
    (node : GraphNode) (hg : g[curr]? = some node) (ht : node.type_name ≠ "Constant")
    (hi : node.inputs = []) :
    const_op_loop g (fuel + 1) (curr :: rest) = none := by
  simp [const_op_loop, hg, ht, hi]

theorem const_op_loop_transparent (g : Graph) (fuel : Nat) (curr : Nat) (rest : List Nat)
    (node : GraphNode) (p : Nat) (l : List Nat)
    (hg : g[curr]? = some node) (ht : node.type_name ≠ "Constant")
    (hi : node.inputs = p :: l) (hmem : node.type_name ∈ allowed_propagation_types_list) :
    const_op_loop g (fuel + 1) (curr :: rest) = const_op_loop g fuel (rest ++ [p]) := by
  simp [const_op_loop, hg, ht, hi, hmem]

theorem const_op_loop_dead_end (g : Graph) (fuel : Nat) (curr : Nat) (rest : List Nat)
    (node : GraphNode) (p : Nat) (l : List Nat)
    (hg : g[curr]? = some node) (ht : node.type_name ≠ "Constant")
    (hi : node.inputs = p :: l) (hmem : node.type_name ∉ allowed_propagation_types_list) :
    const_op_loop g (fuel + 1) (curr :: rest) = const_op_loop g fuel rest := by
  simp [const_op_loop, hg, ht, hi, hmem]

theorem lt_length_of_get_some {α : Type} (l : List α) (i : Nat) (a : α)
    (h : l[i]? = some a) : i < l.length := by
  by_contra hlt
  rw [List.getElem?_eq_none_iff.mpr (by omega)] at h
  exact Option.noConfusion h

/-- A decidable check implying `no_forward_references`. -/
theorem no_forward_references_of_check (g : Graph)
    (h : (List.range g.length).all
      (fun i => (g.getD i default).inputs.all (fun p => decide (p < i))) = true) :
    no_forward_references g := by
  intro i hi p hp
  rw [List.all_eq_true] at h
  have h2 := h i (List.mem_range.mpr hi)
  rw [List.all_eq_true] at h2
  simpa using h2 p hp

theorem no_forward_references_get (g : Graph) (hacy : no_forward_references g)
    (i : Nat) (node : GraphNode) (hg : g[i]? = some node) :
    ∀ p ∈ node.inputs, p < i := by
  have hi : i < g.length := lt_length_of_get_some g i node hg
  have hgd : g.getD i default = node := by
    rw [List.getD_eq_getElem?_getD, hg, Option.getD_some]
  intro p hp
  exact hacy i hi p (by rw [hgd]; exact hp)

/-- With fuel at least `i + 1`, the loop started on the singleton queue `[i]`
computes the same value as with fuel exactly `i + 1`: on an acyclic graph the
walk strictly descends, so graph-size fuel is always sufficient. -/
theorem const_op_loop_stable (g : Graph) (hacy : no_forward_references g) :
    ∀ i, i < g.length → ∀ fuel, i + 1 ≤ fuel →
      const_op_loop g fuel [i] = const_op_loop g (i + 1) [i] := by
  intro i
  induction i using Nat.strong_induction_on with
  | _ i ih =>
    intro hlen fuel hfuel
    obtain ⟨f, rfl⟩ : ∃ f, fuel = f + 1 := ⟨fuel - 1, by omega⟩
    cases hg : g[i]? with
    | none =>
      rw [List.getElem?_eq_none_iff] at hg
      omega
    | some node =>
      by_cases hc : node.type_name = "Constant"
      · rw [const_op_loop_constant g f i [] node hg hc,
          const_op_loop_constant g i i [] node hg hc]
      · cases hinp : node.inputs with
        | nil =>
          rw [const_op_loop_no_inputs g f i [] node hg hc hinp,
            const_op_loop_no_inputs g i i [] node hg hc hinp]
        | cons p l =>
          have hp : p < i :=
            no_forward_references_get g hacy i node hg p (by rw [hinp]; exact List.mem_cons_self p l)
          by_cases hmem : node.type_name ∈ allowed_propagation_types_list
          · rw [const_op_loop_transparent g f i [] node p l hg hc hinp hmem,
              const_op_loop_transparent g i i [] node p l hg hc hinp hmem,
              List.nil_append,
              ih p hp (by omega) f (by omega), ih p hp (by omega) i (by omega)]
          · rw [const_op_loop_dead_end g f i [] node p l hg hc hinp hmem,
              const_op_loop_dead_end g i i [] node p l hg hc hinp hmem,
              const_op_loop_nil, const_op_loop_nil]

/-- The loop only ever returns the index of a `Constant`-typed node. -/
theorem const_op_loop_some_constant (g : Graph) :
    ∀ fuel q c, const_op_loop g fuel q = some c →
      ∃ node, g[c]? = some node ∧ node.type_name = "Constant" := by
  intro fuel
  induction fuel with
  | zero => intro q c h; exact Option.noConfusion h
  | succ f ih =>
    intro q c h
    cases q with
    | nil => exact Option.noConfusion h
    | cons curr rest =>
      cases hg : g[curr]? with
      | none =>
        rw [const_op_loop_missing g f curr rest hg] at h
        exact ih _ _ h
      | some node =>
        by_cases hc : node.type_name = "Constant"
        · rw [const_op_loop_constant g f curr rest node hg hc] at h
          obtain rfl : curr = c := Option.some.inj h
          exact ⟨node, hg, hc⟩
        · cases hinp : node.inputs with
          | nil =>
            rw [const_op_loop_no_inputs g f curr rest node hg hc hinp] at h
            exact Option.noConfusion h
          | cons p l =>
            by_cases hmem : node.type_name ∈ allowed_propagation_types_list
            · rw [const_op_loop_transparent g f curr rest node p l hg hc hinp hmem] at h
              exact ih _ _ h
            · rw [const_op_loop_dead_end g f curr rest node p l hg hc hinp hmem] at h
              exact ih _ _ h

/-- C6: on every finite acyclic graph the backward search of the constant
resolver terminates within a number of iterations bounded by the graph size:
running the loop with any fuel at least `g.length` yields the value the
resolver computes with graph-size fuel, and whenever the resolver returns a
node it is a `Constant`; in particular when no constant is reachable the
result is `none`. -/
theorem c6_resolver_termination (g : Graph) (hacy : no_forward_references g)
    (op : GraphNode) (port i : Nat) (hport : op.inputs[port]? = some i)
    (hi : i < g.length) :
    (∀ fuel, g.length ≤ fuel →
      const_op_loop g fuel [i] = get_operation_const_op g op port)
    ∧ (∀ c, get_operation_const_op g op port = some c →
      ∃ node, g[c]? = some node ∧ node.type_name = "Constant") := by
  constructor
  · intro fuel hfuel
    simp only [get_operation_const_op, hport]
    rw [const_op_loop_stable g hacy i hi fuel (by omega),
      const_op_loop_stable g hacy i hi g.length (by omega)]
  · intro c hc
    simp only [get_operation_const_op, hport] at hc
    exact const_op_loop_some_constant g _ _ _ hc

/-- Concrete instance of C6: a two-node acyclic graph with no constant. -/
theorem c6_resolver_termination_witness :
    const_op_loop [⟨"Parameter", [], "x", "f32"⟩, ⟨"Reshape", [0, 0], "rsh", "f32"⟩] 7 [1]
      = get_operation_const_op [⟨"Parameter", [], "x", "f32"⟩, ⟨"Reshape", [0, 0], "rsh", "f32"⟩]
          ⟨"MatMul", [1, 1], "mm", "f32"⟩ 0 :=
  (c6_resolver_termination
      [⟨"Parameter", [], "x", "f32"⟩, ⟨"Reshape", [0, 0], "rsh", "f32"⟩]
      (no_forward_references_of_check _ (by decide))
      ⟨"MatMul", [1, 1], "mm", "f32"⟩ 0 1 (by decide) (by decide)).1 7 (by decide)

theorem const_op_loop_blocked (g : Graph) (i : Nat) (h : blocked_backward_chain g i) :
    ∀ fuel, const_op_loop g fuel [i] = none := by
  induction h with
  | blocked i node hg hconst hmem =>
    intro fuel
    cases fuel with
    | zero => rfl
    | succ f =>
      cases hinp : node.inputs with
      | nil => exact const_op_loop_no_inputs g f i [] node hg hconst hinp
      | cons p l =>
        rw [const_op_loop_dead_end g f i [] node p l hg hconst hinp hmem,
          const_op_loop_nil]
  | step i node p l hg hconst hmem hinp htail ih =>
    intro fuel
    cases fuel with
    | zero => rfl
    | succ f =>
      rw [const_op_loop_transparent g f i [] node p l hg hconst hinp hmem,
        List.nil_append]
      exact ih f

/-- C1: if an operation's input port is fed by a chain
Constant → Convert → Reshape → (operation), the resolver returns that
Constant; and whenever the backward chain from the port runs into an
operation whose type tag is neither `Constant` nor in the transparent set
{Convert, FakeQuantize, Reshape} (e.g. `Add`), the resolver returns `none`. -/
theorem c1_resolver_chain_behaviour :
    (∀ (g : Graph) (op cn vn rn : GraphNode) (c v r port : Nat) (ctail vtail : List Nat),
        g[c]? = some cn → cn.type_name = "Constant" →
        g[v]? = some vn → vn.type_name = "Convert" → vn.inputs = c :: ctail →
        g[r]? = some rn → rn.type_name = "Reshape" → rn.inputs = v :: vtail →
        op.inputs[port]? = some r →
        get_operation_const_op g op port = some c)
    ∧ (∀ (g : Graph) (op : GraphNode) (n port : Nat),
        op.inputs[port]? = some n → blocked_backward_chain g n →
        get_operation_const_op g op port = none) := by
  constructor
  · intro g op cn vn rn c v r port ctail vtail hgc hct hgv hvt hvi hgr hrt hri hport
    have hcl : c < g.length := lt_length_of_get_some g c cn hgc
    have hvl : v < g.length := lt_length_of_get_some g v vn hgv
    have hrl : r < g.length := lt_length_of_get_some g r rn hgr
    have hrv : r ≠ v := by
      rintro rfl
      have := Option.some.inj (hgv.symm.trans hgr)
      rw [← this, hvt] at hrt
      exact absurd hrt (by decide)
    have hvc : v ≠ c := by
      rintro rfl
      have := Option.some.inj (hgc.symm.trans hgv)
      rw [← this, hct] at hvt
      exact absurd hvt (by decide)
    have hrc : r ≠ c := by
      rintro rfl
      have := Option.some.inj (hgc.symm.trans hgr)
      rw [← this, hct] at hrt
      exact absurd hrt (by decide)
    simp only [get_operation_const_op, hport]
    obtain ⟨f, hf⟩ : ∃ f, g.length = f + 1 + 1 + 1 := ⟨g.length - 3, by omega⟩
    rw [hf,
      const_op_loop_transparent g (f + 1 + 1) r [] rn v vtail hgr
        (by rw [hrt]; decide) hri (by rw [hrt]; decide),
      List.nil_append,
      const_op_loop_transparent g (f + 1) v [] vn c ctail hgv
        (by rw [hvt]; decide) hvi (by rw [hvt]; decide),
      List.nil_append,
      const_op_loop_constant g f c [] cn hgc hct]
  · intro g op n port hport hblocked
    simp only [get_operation_const_op, hport]
    exact const_op_loop_blocked g n hblocked g.length

/-- Concrete instance of C1: a Constant→Convert→Reshape→MatMul chain resolves
to the Constant, and a chain broken by an `Add` resolves to `none`. -/
theorem c1_resolver_chain_behaviour_witness :
    get_operation_const_op
        [⟨"Constant", [], "w", "f32"⟩, ⟨"Convert", [0], "cvt", "f32"⟩,
         ⟨"Reshape", [1, 1], "rsh", "f32"⟩, ⟨"MatMul", [2, 2], "mm", "f32"⟩]
        ⟨"MatMul", [2, 2], "mm", "f32"⟩ 0 = some 0
    ∧ get_operation_const_op
        [⟨"Constant", [], "w", "f32"⟩, ⟨"Add", [0, 0], "add", "f32"⟩,
         ⟨"MatMul", [1, 1], "mm", "f32"⟩]
        ⟨"MatMul", [1, 1], "mm", "f32"⟩ 0 = none :=
  ⟨c1_resolver_chain_behaviour.1
      [⟨"Constant", [], "w", "f32"⟩, ⟨"Convert", [0], "cvt", "f32"⟩,
       ⟨"Reshape", [1, 1], "rsh", "f32"⟩, ⟨"MatMul", [2, 2], "mm", "f32"⟩]
      ⟨"MatMul", [2, 2], "mm", "f32"⟩
      ⟨"Constant", [], "w", "f32"⟩ ⟨"Convert", [0], "cvt", "f32"⟩
      ⟨"Reshape", [1, 1], "rsh", "f32"⟩
      0 1 2 0 [] [1] rfl rfl rfl rfl rfl rfl rfl rfl rfl,
   c1_resolver_chain_behaviour.2
      [⟨"Constant", [], "w", "f32"⟩, ⟨"Add", [0, 0], "add", "f32"⟩,
       ⟨"MatMul", [1, 1], "mm", "f32"⟩]
      ⟨"MatMul", [1, 1], "mm", "f32"⟩ 1 0 rfl
      (blocked_backward_chain.blocked 1 ⟨"Add", [0, 0], "add", "f32"⟩ rfl
        (by decide) (by decide))⟩

theorem const_op_loop_no_break_nil (g : Graph) (fuel : Nat) :
    const_op_loop_no_break g fuel [] = none := by
  cases fuel <;> rfl

/-- C9: the resolver's "breadth-first" queue is degenerate.  (1) From a
singleton queue, one iteration removes the node and enqueues at most one, so
the continuation queue again has at most one element; (2) the loop is exactly
the iteration of this one-step queue transformer; (3) starting from a
singleton queue the loop equals a plain walk along a single backward chain;
(4) replacing the early break taken at a non-constant node without inputs by
merely abandoning that path does not change the result. -/
theorem c9_queue_degenerate :
    (∀ (g : Graph) (curr : Nat) (q2 : List Nat),
        const_op_step g curr [] = some q2 → q2.length ≤ 1)
    ∧ (∀ (g : Graph) (fuel curr : Nat) (rest : List Nat),
        const_op_loop g (fuel + 1) (curr :: rest) =
          match const_op_step g curr rest with
          | none => const_op_exit_value g curr
          | some q2 => const_op_loop g fuel q2)
    ∧ (∀ (g : Graph) (fuel i : Nat),
        const_op_loop g fuel [i] = const_op_chain g fuel i)
    ∧ (∀ (g : Graph) (fuel i : Nat),
        const_op_loop_no_break g fuel [i] = const_op_loop g fuel [i]) := by
  refine ⟨?_, ?_, ?_, ?_⟩
  · intro g curr q2 hstep
    cases hg : g[curr]? with
    | none =>
      simp [const_op_step, hg] at hstep
      subst hstep
      decide
    | some node =>
      by_cases hc : node.type_name = "Constant"
      · simp [const_op_step, hg, hc] at hstep
      · cases hinp : node.inputs with
        | nil => simp [const_op_step, hg, hc, hinp] at hstep
        | cons p l =>
          by_cases hmem : node.type_name ∈ allowed_propagation_types_list
          · simp [const_op_step, hg, hc, hinp, hmem] at hstep
            subst hstep
            simp
          · simp [const_op_step, hg, hc, hinp, hmem] at hstep
            subst hstep
            decide
  · intro g fuel curr rest
    cases hg : g[curr]? with
    | none =>
      rw [const_op_loop_missing g fuel curr rest hg]
      simp [const_op_step, hg]
    | some node =>
      by_cases hc : node.type_name = "Constant"
      · rw [const_op_loop_constant g fuel curr rest node hg hc]
        simp [const_op_step, const_op_exit_value, hg, hc]
      · cases hinp : node.inputs with
        | nil =>
          rw [const_op_loop_no_inputs g fuel curr rest node hg hc hinp]
          simp [const_op_step, const_op_exit_value, hg, hc, hinp]
        | cons p l =>
          by_cases hmem : node.type_name ∈ allowed_propagation_types_list
          · rw [const_op_loop_transparent g fuel curr rest node p l hg hc hinp hmem]
            simp [const_op_step, hg, hc, hinp, hmem]
          · rw [const_op_loop_dead_end g fuel curr rest node p l hg hc hinp hmem]
            simp [const_op_step, hg, hc, hinp, hmem]
  · intro g fuel
    induction fuel with
    | zero => intro i; rfl
    | succ f ih =>
      intro i
      cases hg : g[i]? with
      | none =>
        rw [const_op_loop_missing g f i [] hg, const_op_loop_nil]
        simp [const_op_chain, hg]
      | some node =>
        by_cases hc : node.type_name = "Constant"
        · rw [const_op_loop_constant g f i [] node hg hc]
          simp [const_op_chain, hg, hc]
        · cases hinp : node.inputs with
          | nil =>
            rw [const_op_loop_no_inputs g f i [] node hg hc hinp]
            simp [const_op_chain, hg, hc, hinp]
          | cons p l =>
            by_cases hmem : node.type_name ∈ allowed_propagation_types_list
            · rw [const_op_loop_transparent g f i [] node p l hg hc hinp hmem,
                List.nil_append, ih p]
              simp [const_op_chain, hg, hc, hinp, hmem]
            · rw [const_op_loop_dead_end g f i [] node p l hg hc hinp hmem,
                const_op_loop_nil]
              simp [const_op_chain, hg, hc, hinp, hmem]
  · intro g fuel
    induction fuel with
    | zero => intro i; rfl
    | succ f ih =>
      intro i
      cases hg : g[i]? with
      | none =>
        rw [const_op_loop_missing g f i [] hg, const_op_loop_nil]
        simp [const_op_loop_no_break, const_op_loop_no_break_nil, hg]
      | some node =>
        by_cases hc : node.type_name = "Constant"
        · rw [const_op_loop_constant g f i [] node hg hc]
          simp [const_op_loop_no_break, hg, hc]
        · cases hinp : node.inputs with
          | nil =>
            rw [const_op_loop_no_inputs g f i [] node hg hc hinp]
            simp [const_op_loop_no_break, const_op_loop_no_break_nil, hg, hc, hinp]
          | cons p l =>
            by_cases hmem : node.type_name ∈ allowed_propagation_types_list
            · rw [const_op_loop_transparent g f i [] node p l hg hc hinp hmem,
                List.nil_append, ← ih p]
              simp [const_op_loop_no_break, hg, hc, hinp, hmem]
            · rw [const_op_loop_dead_end g f i [] node p l hg hc hinp hmem,
                const_op_loop_nil]
              simp [const_op_loop_no_break, const_op_loop_no_break_nil, hg, hc, hinp, hmem]

/-- Concrete instance of C9: the continuation queue after one step on a
singleton queue has at most one element. -/
theorem c9_queue_degenerate_witness :
    ([0] : List Nat).length ≤ 1 :=
  c9_queue_degenerate.1 [⟨"Reshape", [0, 0], "rsh", "f32"⟩] 0 [0] rfl

theorem is_embedding_eq (g : Graph) (op : GraphNode) :
    is_embedding g op = (port0_is_float g op && (get_operation_const_op g op 0).isSome) := by
  unfold is_embedding port0_is_float port0_value_element_type
  cases h0 : op.inputs[0]? with
  | none => simp
  | some p =>
    cases hp : g[p]? with
    | none => simp [hp]
    | some producer =>
      by_cases hel : producer.element_type ∈ ["f16", "f32", "f64"]
      · simp [hp, hel]
      · simp [hp, hel]

theorem collect_ops_body_eq (g : Graph) (acc : List String) (op : GraphNode) :
    collect_ops_body g acc op
      = acc ++ (if is_weight_op g op then [op.friendly_name] else []) := by
  by_cases hm : op.type_name = "MatMul"
  · by_cases h0 : (get_operation_const_op g op 0).isSome = true
    · simp [collect_ops_body, is_weight_op, hm, h0]
    · by_cases h1 : (get_operation_const_op g op 1).isSome = true
      · simp [collect_ops_body, is_weight_op, hm, h0, h1]
      · simp [collect_ops_body, is_weight_op, hm, h0, h1]
  · by_cases hgg : op.type_name = "Gather"
    · have hige := is_embedding_eq g op
      by_cases hemb : is_embedding g op = true
      · rw [hemb] at hige
        simp [collect_ops_body, is_weight_op, hm, hgg, hemb, ← hige]
      · rw [Bool.not_eq_true] at hemb
        rw [hemb] at hige
        simp [collect_ops_body, is_weight_op, hm, hgg, hemb, ← hige]
    · simp [collect_ops_body, is_weight_op, hm, hgg]

/-- C2: an operation's friendly name is collected exactly when it is a MatMul
one of whose operands (port 0 or port 1) resolves to a constant, or a Gather
whose port-0 value has element type f16/f32/f64 and whose port 0 resolves to
a constant; all other type tags are never collected. -/
theorem c2_classifier (g : Graph) :
    collect_ops_with_weights g
      = (g.filter (fun op => is_weight_op g op)).map (fun op => op.friendly_name)
    ∧ (∀ name, name ∈ collect_ops_with_weights g ↔
        ∃ op, op ∈ g ∧ is_weight_op g op = true ∧ op.friendly_name = name)
    ∧ (∀ op : GraphNode, is_weight_op g op = true ↔
        (op.type_name = "MatMul" ∧
          ((get_operation_const_op g op 0).isSome = true
            ∨ (get_operation_const_op g op 1).isSome = true))
        ∨ (op.type_name = "Gather" ∧
          (∃ t, port0_value_element_type g op = some t ∧ t ∈ ["f16", "f32", "f64"]) ∧
          (get_operation_const_op g op 0).isSome = true)) := by
  have hmain : ∀ (ops : List GraphNode) (acc : List String),
      List.foldl (collect_ops_body g) acc ops
        = acc ++ (ops.filter (fun op => is_weight_op g op)).map (fun op => op.friendly_name) := by
    intro ops
    induction ops with
    | nil => intro acc; simp
    | cons op rest ih =>
      intro acc
      rw [List.foldl_cons, ih, collect_ops_body_eq, List.filter_cons]
      by_cases hw : is_weight_op g op = true
      · simp [hw]
      · simp [hw]
  have heq : collect_ops_with_weights g
      = (g.filter (fun op => is_weight_op g op)).map (fun op => op.friendly_name) := by
    rw [collect_ops_with_weights, hmain g []]
    rfl
  refine ⟨heq, ?_, ?_⟩
  · intro name
    rw [heq]
    simp only [List.mem_map, List.mem_filter]
    constructor
    · rintro ⟨op, ⟨hop, hwop⟩, hname⟩
      exact ⟨op, hop, hwop, hname⟩
    · rintro ⟨op, hop, hwop, hname⟩
      exact ⟨op, ⟨hop, hwop⟩, hname⟩
  · intro op
    unfold is_weight_op port0_is_float
    cases hpt : port0_value_element_type g op with
    | none => simp
    | some t =>
      simp [hpt]
      tauto

/-- C3 is violated by the code: with a caller configuration whose
ignored-scope dict is `{"types": []}`, running hybrid quantization mutates
the caller's own dict — its "types" entry reads `["Convolution"]` afterwards.
The deep copy made by the code is immediately re-bound to the original dict,
so the "Convolution" injection lands on the caller's object. -/
theorem c3_hybrid_mutates_caller_scope :
    Heap.dictVal ⟨[[]], [[("types", 0)]]⟩ 0 "types" = some []
    ∧ Heap.dictVal
        (hybrid_quantization ⟨[[]], [[("types", 0)]]⟩ [] ⟨some 0, none⟩).fst
        0 "types" = some ["Convolution"] := by decide

/-- C4 is violated by the code on part (2): when the user's ignored-scope
dict contains a "names" entry, the in-place extension of
`ptq_ignored_scope.names` (which aliases the dict's own list) happens before
the weight-only pass, so that pass's ignored scope contains the collected
weight-bearing names in addition to the user's exclusions and the injected
"Convolution" type. -/
theorem c4_wc_pass_scope_includes_collected_names :
    (hybrid_quantization
        ⟨[["user_op"]], [[("names", 0)]]⟩
        [⟨"Constant", [], "w", "f32"⟩, ⟨"Parameter", [], "x", "f32"⟩,
         ⟨"MatMul", [1, 0], "mm", "f32"⟩]
        ⟨some 0, none⟩).snd
      = [HEvent.collect_ops ["mm"],
         HEvent.compress_weights ["user_op", "mm"] ["Convolution"] [],
         HEvent.quantize_full ["user_op", "mm"] [] [] 200 (-1)] := by decide

/-- C5: `quantize` validation.  (a) A missing save directory errors with no
step taken.  (b) With `weights_only = False` and no calibration dataset, an
error is raised with no step taken (so nothing is created under the save
directory).  (c) A non-`OVConfig` configuration raises a type error with at
most warnings emitted (no side effect), whether weights-only or not.
(d) With `weights_only = True`, a supplied calibration dataset produces only
a warning and execution continues to completion. -/
theorem c5_quantize_validation :
    (∀ (model : ModelKind) (aliases : String → String) (task inferred : Option String)
        (ds : Bool) (cfg : ConfigArg) (w : Bool),
        OVQuantizer_quantize model aliases task inferred ds none cfg w
          = ([], some (QError.value_error "save_directory needs to be specified")))
    ∧ (∀ (model : ModelKind) (aliases : String → String) (task inferred : Option String)
        (sd : Option String) (cfg : ConfigArg),
        (OVQuantizer_quantize model aliases task inferred false sd cfg false).fst = []
        ∧ (OVQuantizer_quantize model aliases task inferred false sd cfg false).snd.isSome
          = true)
    ∧ (∀ (model : ModelKind) (aliases : String → String) (task inferred : Option String)
        (ds : Bool) (sd tn : String),
        ((OVQuantizer_quantize model aliases task inferred ds (some sd)
            (ConfigArg.other_config tn) true).snd
            = some (QError.type_error ("ov_config should be an OVConfig, but got: " ++ tn))
          ∧ (OVQuantizer_quantize model aliases task inferred ds (some sd)
              (ConfigArg.other_config tn) true).fst.all QEvent.is_warning = true)
        ∧ ((OVQuantizer_quantize model aliases task inferred true (some sd)
            (ConfigArg.other_config tn) false).snd
            = some (QError.type_error ("ov_config should be an OVConfig, but got: " ++ tn))
          ∧ (OVQuantizer_quantize model aliases task inferred true (some sd)
              (ConfigArg.other_config tn) false).fst.all QEvent.is_warning = true))
    ∧ (∀ (aliases : String → String) (task inferred : Option String) (sd : String),
        OVQuantizer_quantize ModelKind.ov_base_model aliases task inferred true (some sd)
            ConfigArg.no_config true
          = ([QEvent.warning "calibration_dataset was provided but will not be used as weights_only is set to True",
              QEvent.mkdir sd, QEvent.weight_only_compress, QEvent.save_model sd], none)) := by
  refine ⟨?_, ?_, ?_, ?_⟩
  · intro model aliases task inferred ds cfg w
    rfl
  · intro model aliases task inferred sd cfg
    cases sd with
    | none => exact ⟨rfl, rfl⟩
    | some d => exact ⟨rfl, rfl⟩
  · intro model aliases task inferred ds sd tn
    refine ⟨⟨?_, ?_⟩, ?_, ?_⟩ <;> cases ds <;> rfl
  · intro aliases task inferred sd
    rfl

/-- Helper for C7: whenever task resolution fails, the torch/export path of
`quantize` ends in an error and its trace holds no export step. -/
theorem quantize_torch_no_export (aliases : String → String)
    (task inferred : Option String) (ds : Bool) (sd : Option String)
    (cfg : ConfigArg) (w : Bool)
    (hset : ∀ t, set_task aliases task inferred ≠ Except.ok t) :
    (OVQuantizer_quantize ModelKind.torch_module aliases task inferred ds sd cfg w).snd.isSome
      = true
    ∧ ∀ s, QEvent.export_model s
        ∉ (OVQuantizer_quantize ModelKind.torch_module aliases task inferred ds sd cfg w).fst := by
  cases sd with
  | none => exact ⟨rfl, by intro s; simp [OVQuantizer_quantize]⟩
  | some d =>
    by_cases hv : (!w && !ds) = true
    · constructor
      · simp [OVQuantizer_quantize, hv]
      · intro s
        simp only [OVQuantizer_quantize, hv]
        cases w <;> cases ds <;> simp_all
    · cases cfg with
      | other_config tn =>
        constructor
        · simp [OVQuantizer_quantize, hv]
        · intro s
          simp only [OVQuantizer_quantize, hv]
          cases w <;> cases ds <;> simp_all
      | no_config =>
        cases hst : set_task aliases task inferred with
        | ok t => exact absurd hst (hset t)
        | error e =>
          constructor
          · simp [OVQuantizer_quantize, hv, quantize_torchmodel, hst]
          · intro s
            simp only [OVQuantizer_quantize, hv, quantize_torchmodel, hst]
            cases w <;> cases ds <;> simp_all
      | ov_config_arg =>
        cases hst : set_task aliases task inferred with
        | ok t => exact absurd hst (hset t)
        | error e =>
          constructor
          · simp [OVQuantizer_quantize, hv, quantize_torchmodel, hst]
          · intro s
            simp only [OVQuantizer_quantize, hv, quantize_torchmodel, hst]
            cases w <;> cases ds <;> simp_all

/-- C7: on the export path, a task that resolves (after alias resolution) to
"text2text-generation" or "image-to-text" — whether passed explicitly or
inferred — makes `quantize` raise before any export step, and so does a
missing task whose inference fails. -/
theorem c7_export_task_rejection :
    (∀ (aliases : String → String) (t : String) (inferred : Option String)
        (ds : Bool) (sd : Option String) (cfg : ConfigArg) (w : Bool),
        (aliases t = "text2text-generation" ∨ aliases t = "image-to-text") →
        (OVQuantizer_quantize ModelKind.torch_module aliases (some t) inferred ds sd cfg
            w).snd.isSome = true
        ∧ ∀ s, QEvent.export_model s
            ∉ (OVQuantizer_quantize ModelKind.torch_module aliases (some t) inferred ds sd
                cfg w).fst)
    ∧ (∀ (aliases : String → String) (t : String) (ds : Bool) (sd : Option String)
        (cfg : ConfigArg) (w : Bool),
        (aliases t = "text2text-generation" ∨ aliases t = "image-to-text") →
        (OVQuantizer_quantize ModelKind.torch_module aliases none (some t) ds sd cfg
            w).snd.isSome = true
        ∧ ∀ s, QEvent.export_model s
            ∉ (OVQuantizer_quantize ModelKind.torch_module aliases none (some t) ds sd
                cfg w).fst)
    ∧ (∀ (aliases : String → String) (ds : Bool) (sd : Option String)
        (cfg : ConfigArg) (w : Bool),
        (OVQuantizer_quantize ModelKind.torch_module aliases none none ds sd cfg
            w).snd.isSome = true
        ∧ ∀ s, QEvent.export_model s
            ∉ (OVQuantizer_quantize ModelKind.torch_module aliases none none ds sd
                cfg w).fst) := by
  refine ⟨?_, ?_, ?_⟩
  · intro aliases t inferred ds sd cfg w hbad
    refine quantize_torch_no_export aliases (some t) inferred ds sd cfg w ?_
    intro t2
    cases hbad with
    | inl h => simp [set_task, h]
    | inr h => simp [set_task, h]
  · intro aliases t ds sd cfg w hbad
    refine quantize_torch_no_export aliases none (some t) ds sd cfg w ?_
    intro t2
    cases hbad with
    | inl h => simp [set_task, h]
    | inr h => simp [set_task, h]
  · intro aliases ds sd cfg w
    refine quantize_torch_no_export aliases none none ds sd cfg w ?_
    intro t2
    simp [set_task]

/-- Concrete instance of C7: an explicitly requested task aliased to
"text2text-generation" is rejected. -/
theorem c7_export_task_rejection_witness :
    (OVQuantizer_quantize ModelKind.torch_module (fun _ => "text2text-generation")
        (some "summarization") none true (some "out") ConfigArg.no_config
        false).snd.isSome = true :=
  (c7_export_task_rejection.1 (fun _ => "text2text-generation") "summarization" none true
      (some "out") ConfigArg.no_config false (Or.inl rfl)).1

theorem range_filterMap_get {α : Type} (l : List α) (n : Nat) :
    (List.range n).filterMap (fun i => l[i]?) = l.take n := by
  induction n with
  | zero => simp
  | succ m ih =>
    rw [List.range_succ, List.filterMap_append, ih, List.take_succ]
    cases h : l[m]? <;> simp [h]

/-- Shared shape lemma: with a length-preserving shuffle, the construction is
shuffle-then-take. -/
theorem get_calibration_dataset_take {α : Type} (shuffle : List α → Nat → List α)
    (ds : List α) (seed cap : Nat)
    (hlen : (shuffle ds seed).length = ds.length) :
    get_calibration_dataset shuffle ds seed (some cap)
      = some ((shuffle ds seed).take (min cap ds.length)) := by
  have hc : (List.range (min cap ds.length)).all
      (fun i => decide (i < (shuffle ds seed).length)) = true := by
    rw [List.all_eq_true]
    intro i hi
    rw [List.mem_range] at hi
    simp only [decide_eq_true_eq, hlen]
    omega
  simp only [get_calibration_dataset, dataset_select]
  rw [if_pos hc, range_filterMap_get]

/-- C8: two runs of the calibration-dataset construction with the same
shuffle function, dataset, seed and cap give the same ordered subset, and
that subset is the seeded shuffle of the dataset truncated to the cap
(shuffle-then-take). -/
theorem c8_deterministic_sampling {α : Type} (shuffle : List α → Nat → List α)
    (ds : List α) (seed cap : Nat)
    (hlen : (shuffle ds seed).length = ds.length) :
    get_calibration_dataset shuffle ds seed (some cap)
      = get_calibration_dataset shuffle ds seed (some cap)
    ∧ get_calibration_dataset shuffle ds seed (some cap)
      = some ((shuffle ds seed).take (min cap ds.length)) :=
  ⟨rfl, get_calibration_dataset_take shuffle ds seed cap hlen⟩

/-- Concrete instance of C8: shuffling [1, 2, 3] by reversal and capping at
2 yields [3, 2]. -/
theorem c8_deterministic_sampling_witness :
    get_calibration_dataset (fun (l : List Nat) _ => l.reverse) [1, 2, 3] 7 (some 2)
      = some [3, 2] :=
  (c8_deterministic_sampling (fun (l : List Nat) _ => l.reverse) [1, 2, 3] 7 2 (by rfl)).2

/-- C10: the factory caps the requested count at the dataset length, so
requesting more samples than the dataset contains returns the whole shuffled
dataset and never an out-of-range selection error. -/
theorem c10_cap_at_dataset_length {α : Type} (shuffle : List α → Nat → List α)
    (ds : List α) (seed cap : Nat)
    (hlen : (shuffle ds seed).length = ds.length)
    (hcap : ds.length ≤ cap) :
    get_calibration_dataset shuffle ds seed (some cap) = some (shuffle ds seed)
    ∧ (get_calibration_dataset shuffle ds seed (some cap)).isSome = true := by
  have hmin : min cap ds.length = ds.length := by omega
  rw [get_calibration_dataset_take shuffle ds seed cap hlen, hmin, ← hlen, List.take_length]
  exact ⟨rfl, rfl⟩

/-- Concrete instance of C10: requesting 5 samples from a 2-row dataset
returns the whole shuffled dataset. -/
theorem c10_cap_at_dataset_length_witness :
    get_calibration_dataset (fun (l : List Nat) _ => l.reverse) [1, 2] 0 (some 5)
      = some [2, 1] :=
  (c10_cap_at_dataset_length (fun (l : List Nat) _ => l.reverse) [1, 2] 0 5 (by rfl)
      (by decide)).1
